import Mathlib

/-!
Shallow embedding of the Plotter multi-backend routing and resilience layer.

Sources embedded here:
- `SimpleDataSourceRouter` (PlotterRepositories/tests/mocks/MockDataSourceRouter.h):
  backend registration list, availability filtering, `executeRead` fallback loop,
  `executeWrite` fan-out with partial-success semantics.
- `SimplePriorityStrategy` and `SimpleCacheFirstStrategy`
  (PlotterRepositories/tests/mocks/MockRoutingStrategies.h).
- `MultiSourceProjectRepository::findById` / `::exists` and
  `MultiSourceNoteRepository::exists` (PlotterRepositories headers).
- `SqliteProjectMapper` / `SqliteNoteMapper` (PlotterSqliteMappers) together with
  the `Project` / `Note` entities (PlotterEntities).
- `BaseUseCase::executeWithRetry` with `OperationConfig` / `ErrorDetails` /
  `Response` (PlotterUseCases).

Modelling conventions: C++ exceptions become `Except String`; a raw pointer that
may be null becomes `Option`; `std::chrono` wall-clock reads become explicit
`now` parameters; the blocking sleeps of the retry loop are returned as an
explicit trace (list of the slept durations in milliseconds) so that "fixed
delay, no backoff" is statable.  `recordResult` is a no-op in every routing
strategy shipped with the repository, so strategies are modelled by their two
selection functions only.
-/

set_option autoImplicit false

namespace Plotter

/-- Base `DataSource` descriptor fields used by the router and the strategies:
`getName()`, `getType()`, `getPriority()`, `isAvailable()`. -/
structure DataSource where
  name : String
  type : String
  priority : Int
  available : Bool
deriving Repr, DecidableEq

/-- A routing strategy, reduced to its two selection functions
(`recordResult` is a no-op in `SimplePriorityStrategy` and
`SimpleCacheFirstStrategy`, the two implementations in the repository). -/
structure RoutingStrategy (T : Type) where
  selectForRead : List T → Option T
  selectForWrite : List T → List T

/-- Router state of `SimpleDataSourceRouter<T>`: the registered backend list
(insertion order) and the optional active strategy. -/
structure Router (T : Type) where
  dataSources : List T
  strategy : Option (RoutingStrategy T)

/-- `SimpleDataSourceRouter::addDataSource`: appends, ignoring a null pointer. -/
def addDataSource (dataSources : List DataSource) (datasource : Option DataSource) :
    List DataSource :=
  match datasource with
  | some ds => dataSources ++ [ds]
  | none => dataSources

/-- `SimpleDataSourceRouter::removeDataSource`: `std::remove_if` keeps the
elements whose name differs, then erases to the end; returns `true` iff
`remove_if` moved anything (i.e. at least one element matched). -/
def removeDataSource {T : Type} (getName : T → String) (dataSources : List T)
    (datasourceName : String) : List T × Bool :=
  let remaining := dataSources.filter (fun ds => getName ds ≠ datasourceName)
  if remaining.length ≠ dataSources.length then (remaining, true)
  else (dataSources, false)

/-- `SimpleDataSourceRouter::getAllDataSources`: returns the registered list. -/
def getAllDataSources (dataSources : List DataSource) : List DataSource :=
  dataSources

/-- `SimpleDataSourceRouter::getAvailableDataSources`: filters by
`isAvailable()`, preserving registration order. -/
def getAvailableDataSources {T : Type} (isAvailable : T → Bool)
    (dataSources : List T) : List T :=
  dataSources.filter isAvailable

/-- A single registration mutation on the router's backend list. -/
inductive RouterOp where
  | add (datasource : Option DataSource)
  | remove (datasourceName : String)

/-- Apply one registration mutation. -/
def applyOp (dataSources : List DataSource) : RouterOp → List DataSource
  | .add ds => addDataSource dataSources ds
  | .remove n => (removeDataSource DataSource.name dataSources n).fst

/-- Apply a sequence of registration mutations, oldest first. -/
def applyOps (ops : List RouterOp) (dataSources : List DataSource) : List DataSource :=
  ops.foldl applyOp dataSources

/-- `true` iff an `Except` result is a success (a C++ call that did not throw). -/
def isOkRes {ε α : Type} : Except ε α → Bool
  | .ok _ => true
  | .error _ => false

/-- The carried message of a failed `Except` result (`e.what()`); `""` on `.ok`. -/
def errOf {α : Type} : Except String α → String
  | .ok _ => ""
  | .error e => e

/-- The `"[name: message] "` fragment appended to the aggregated error stream
for one failing backend. -/
def failFragment {T ρ : Type} (getName : T → String) (operation : T → Except String ρ)
    (ds : T) : String :=
  "[" ++ getName ds ++ ": " ++ errOf (operation ds) ++ "] "

/-- The aggregated error stream produced when every backend in the list fails:
the concatenation of the `"[name: message] "` fragments in order. -/
def aggErrors {T ρ : Type} (getName : T → String) (operation : T → Except String ρ) :
    List T → String
  | [] => ""
  | ds :: rest => failFragment getName operation ds ++ aggErrors getName operation rest

/-- The fallback loop of `SimpleDataSourceRouter::executeRead`: try each
backend in order, return the first success, otherwise accumulate
`"[name: what] "` into the error stream and throw the aggregate at the end. -/
def readLoop {T ρ : Type} (getName : T → String) (operation : T → Except String ρ) :
    List T → String → Except String ρ
  | [], errors => .error ("All datasources failed: " ++ errors)
  | ds :: rest, errors =>
    match operation ds with
    | .ok result => .ok result
    | .error e =>
      readLoop getName operation rest (errors ++ "[" ++ getName ds ++ ": " ++ e ++ "] ")

/-- `SimpleDataSourceRouter::executeRead`: throws if no backend is available,
otherwise runs the fallback loop over the available backends in registration
order.  (The strategy is only consulted through its no-op `recordResult`, so it
does not appear here.) -/
def executeRead {T ρ : Type} (getName : T → String) (isAvailable : T → Bool)
    (dataSources : List T) (operation : T → Except String ρ) : Except String ρ :=
  let available := getAvailableDataSources isAvailable dataSources
  if available.isEmpty then
    .error "No available datasources for read operation"
  else
    readLoop getName operation available ""

/-- `SimpleDataSourceRouter::selectForWrite`: the available backends, delegated
to the strategy when one is set (the C++ casts between `T*` and `DataSource*`
are identities and are dropped). -/
def routerSelectForWrite {T : Type} (isAvailable : T → Bool) (router : Router T) :
    List T :=
  let available := getAvailableDataSources isAvailable router.dataSources
  if available.isEmpty then []
  else
    match router.strategy with
    | none => available
    | some strat => strat.selectForWrite available

/-- The fan-out loop of `SimpleDataSourceRouter::executeWrite`: invoke the
operation on every selected backend, collecting successful results and
accumulating `"[name: what] "` for failures; succeed iff any attempt did. -/
def writeLoop {T ρ : Type} (getName : T → String) (operation : T → Except String ρ) :
    List T → List ρ → String → Bool → Except String (List ρ)
  | [], results, errors, anySuccess =>
    if anySuccess then .ok results
    else .error ("All datasources failed: " ++ errors)
  | ds :: rest, results, errors, anySuccess =>
    match operation ds with
    | .ok result => writeLoop getName operation rest (results ++ [result]) errors true
    | .error e =>
      writeLoop getName operation rest results
        (errors ++ "[" ++ getName ds ++ ": " ++ e ++ "] ") anySuccess

/-- `SimpleDataSourceRouter::executeWrite`: compute the target set via
`selectForWrite`, throw if it is empty, otherwise fan out. -/
def executeWrite {T ρ : Type} (getName : T → String) (isAvailable : T → Bool)
    (router : Router T) (operation : T → Except String ρ) : Except String (List ρ) :=
  let selected := routerSelectForWrite isAvailable router
  if selected.isEmpty then
    .error "No available datasources for write operation"
  else
    writeLoop getName operation selected [] "" false

/-- The `std::max_element` scan of `SimplePriorityStrategy::selectForRead`:
start from the first element and replace the current best only on a strictly
greater priority, so the first of several maxima wins. -/
def firstMaxFrom (best : DataSource) : List DataSource → DataSource
  | [] => best
  | x :: xs => firstMaxFrom (if best.priority < x.priority then x else best) xs

/-- `SimplePriorityStrategy` (MockRoutingStrategies.h): read picks the
highest-priority available backend via `std::max_element`; write targets all
available backends. -/
def SimplePriorityStrategy : RoutingStrategy DataSource where
  selectForRead available :=
    match available with
    | [] => none
    | d :: ds => some (firstMaxFrom d ds)
  selectForWrite available := available

/-- The inner loop of `SimpleCacheFirstStrategy`: does this backend's type
match any configured cache type? -/
def isCacheType (cacheTypes : List String) (source : DataSource) : Bool :=
  cacheTypes.any (fun cacheType => decide (source.type = cacheType))

/-- The outer loop of `SimpleCacheFirstStrategy::selectForRead`: the first
available backend of a cache type, if any. -/
def findCacheSource (cacheTypes : List String) : List DataSource → Option DataSource
  | [] => none
  | source :: rest =>
    if isCacheType cacheTypes source then some source
    else findCacheSource cacheTypes rest

/-- `SimpleCacheFirstStrategy` (MockRoutingStrategies.h), parametrised by its
two configurable fields (`cacheTypes` defaults to `["Memory", "Cache"]` and
`writeThroughEnabled` to `true` in the C++, both settable): read prefers the
first cache-typed available backend, falling back to the first available one;
write targets all available backends under write-through and only the
non-cache backends otherwise. -/
def SimpleCacheFirstStrategy (cacheTypes : List String) (writeThroughEnabled : Bool) :
    RoutingStrategy DataSource where
  selectForRead available :=
    match available with
    | [] => none
    | first :: rest =>
      match findCacheSource cacheTypes (first :: rest) with
      | some source => some source
      | none => some first
  selectForWrite available :=
    if !writeThroughEnabled then
      available.filter (fun source => !isCacheType cacheTypes source)
    else
      available

/-! ### Entities (PlotterEntities) -/

/-- The `Project` entity: `FileItem` base (`id`, `name`) plus `description`
and the ordered `folderIds` list. -/
structure Project where
  id : String
  name : String
  description : String
  folderIds : List String
deriving Repr, DecidableEq

/-- The `Project(id, name, description)` constructor: `folderIds` starts empty. -/
def Project.make (id name description : String) : Project :=
  { id := id, name := name, description := description, folderIds := [] }

/-- `Project::addFolderId`: `push_back` on the folder-id list. -/
def Project.addFolderId (project : Project) (folderId : String) : Project :=
  { project with folderIds := project.folderIds ++ [folderId] }

/-- The `Note` entity: `FileItem` base (`id`, `name`) plus `path`, `content`,
`parentFolderId` and the two clock-sampled timestamps (clock reads are passed
in as explicit `now` values). -/
structure Note where
  id : String
  name : String
  path : String
  content : String
  parentFolderId : String
  createdAt : Int
  updatedAt : Int
deriving Repr, DecidableEq

/-- The `Note(id, name, path, parentFolderId)` constructor: content starts
empty, both timestamps are set from the clock. -/
def Note.make (now : Int) (id name path parentFolderId : String) : Note :=
  { id := id, name := name, path := path, content := "",
    parentFolderId := parentFolderId, createdAt := now, updatedAt := now }

/-- `Note::setContent`: stores the content and refreshes `updatedAt`. -/
def Note.setContent (now : Int) (note : Note) (content : String) : Note :=
  { note with content := content, updatedAt := now }

/-! ### SQLite DTOs and mappers (PlotterSqliteDTOs, PlotterSqliteMappers) -/

/-- `SqliteProjectDTO` (SqliteDTOs.h): the SQLite row shape for a project. -/
structure SqliteProjectDTO where
  id : String
  name : String
  description : String
  createdAt : Int
  updatedAt : Int
  folderIds : List String
deriving Repr, DecidableEq

/-- `SqliteNoteDTO` (SqliteDTOs.h): the SQLite row shape for a note. -/
structure SqliteNoteDTO where
  id : String
  name : String
  path : String
  content : String
  parentFolderId : String
  createdAt : Int
  updatedAt : Int
deriving Repr, DecidableEq

/-- `SqliteProjectMapper::toDTO`: copies `id`, `name`, `description` and
`folderIds`, stamping both timestamps with `getCurrentTimestamp()` (the `now`
parameter). -/
def SqliteProjectMapper.toDTO (now : Int) (entity : Project) : SqliteProjectDTO :=
  { id := entity.id, name := entity.name, description := entity.description,
    createdAt := now, updatedAt := now, folderIds := entity.folderIds }

/-- `SqliteProjectMapper::toEntity`: constructs `Project(id, name, description)`
then `addFolderId` for each DTO folder id in order.  (The C++ `dynamic_cast`
to `SqliteProjectDTO` always succeeds here because the embedding types the DTO
concretely.) -/
def SqliteProjectMapper.toEntity (dto : SqliteProjectDTO) : Project :=
  dto.folderIds.foldl Project.addFolderId (Project.make dto.id dto.name dto.description)

/-- `SqliteNoteMapper::toDTO`: copies `id`, `name`, `path`, `content` and
`parentFolderId`, stamping both timestamps with the clock. -/
def SqliteNoteMapper.toDTO (now : Int) (entity : Note) : SqliteNoteDTO :=
  { id := entity.id, name := entity.name, path := entity.path,
    content := entity.content, parentFolderId := entity.parentFolderId,
    createdAt := now, updatedAt := now }

/-- `SqliteNoteMapper::toEntity`: constructs
`Note(id, name, path, parentFolderId)` then `setContent(content)`. -/
def SqliteNoteMapper.toEntity (now : Int) (dto : SqliteNoteDTO) : Note :=
  Note.setContent now (Note.make now dto.id dto.name dto.path dto.parentFolderId)
    dto.content

/-! ### Multi-source repositories (PlotterRepositories) -/

/-- A project backend as the repository's `findById` / `exists` use it: the
`DataSource` identity fields plus the two fallible calls.  The DTO type is a
parameter, mirroring the abstract `dto::ProjectDTO` marker base. -/
structure ProjectDataSource (DTO : Type) where
  name : String
  available : Bool
  findById : String → Except String (Option DTO)
  existsById : String → Except String Bool

/-- A note backend as `MultiSourceNoteRepository::exists` uses it. -/
structure NoteDataSource where
  name : String
  available : Bool
  existsById : String → Except String Bool

/-- The lambda `MultiSourceProjectRepository::findById` passes to
`executeRead`: call the backend and wrap its exception with the backend's
name. -/
def projectFindByIdOp {DTO : Type} (id : String) (ds : ProjectDataSource DTO) :
    Except String (Option DTO) :=
  match ds.findById id with
  | .ok dtoPtr => .ok dtoPtr
  | .error e =>
    .error ("DataSource '" ++ ds.name ++ "' failed to find project: " ++ e)

/-- The lambda `MultiSourceProjectRepository::exists` passes to `executeRead`. -/
def projectExistsOp {DTO : Type} (id : String) (ds : ProjectDataSource DTO) :
    Except String Bool :=
  match ds.existsById id with
  | .ok b => .ok b
  | .error e =>
    .error ("DataSource '" ++ ds.name ++ "' failed to check if project exists: " ++ e)

/-- The lambda `MultiSourceNoteRepository::exists` passes to `executeRead`. -/
def noteExistsOp (id : String) (ds : NoteDataSource) : Except String Bool :=
  match ds.existsById id with
  | .ok b => .ok b
  | .error e =>
    .error ("DataSource '" ++ ds.name ++ "' failed to check if note exists: " ++ e)

/-- `MultiSourceProjectRepository::findById`: wraps each backend's exception
with the backend's name, runs the router's `executeRead` fallback, maps a
non-null DTO through the mapper, and wraps any surfaced error with the method
name and id.  (The router's `recordResult` feedback is a no-op in every
strategy of the repository, so `executeRead` depends only on the backend
list.) -/
def MultiSourceProjectRepository.findById {DTO : Type} (toEntity : DTO → Project)
    (dataSources : List (ProjectDataSource DTO)) (id : String) :
    Except String (Option Project) :=
  match executeRead ProjectDataSource.name ProjectDataSource.available dataSources
      (projectFindByIdOp id) with
  | .ok none => .ok none
  | .ok (some dtoPtr) => .ok (some (toEntity dtoPtr))
  | .error e =>
    .error ("MultiSourceProjectRepository::findById failed for id '" ++ id ++ "': " ++ e)

/-- `MultiSourceProjectRepository::exists`: the same `executeRead` shape, but
the outer catch swallows every exception and returns `false`. -/
def MultiSourceProjectRepository.existsById {DTO : Type}
    (dataSources : List (ProjectDataSource DTO)) (id : String) : Bool :=
  match executeRead ProjectDataSource.name ProjectDataSource.available dataSources
      (projectExistsOp id) with
  | .ok b => b
  | .error _ => false

/-- `MultiSourceNoteRepository::exists`: identical shape for notes. -/
def MultiSourceNoteRepository.existsById (dataSources : List NoteDataSource)
    (id : String) : Bool :=
  match executeRead NoteDataSource.name NoteDataSource.available dataSources
      (noteExistsOp id) with
  | .ok b => b
  | .error _ => false

/-! ### Resilient operation executor (PlotterUseCases) -/

/-- `ErrorCategory` (UseCaseCommon.h). -/
inductive ErrorCategory where
  | VALIDATION_ERROR
  | TIMEOUT_ERROR
  | REPOSITORY_ERROR
  | BUSINESS_RULE_ERROR
  | NETWORK_ERROR
  | RESOURCE_LOCKED
  | INSUFFICIENT_PERMISSIONS
  | SYSTEM_ERROR
deriving Repr, DecidableEq

/-- `ErrorDetails` (UseCaseCommon.h); `retryAttempt` defaults to `0`. -/
structure ErrorDetails where
  category : ErrorCategory
  message : String
  technicalDetails : String
  retryAttempt : Int
deriving Repr, DecidableEq

/-- `OperationConfig` (UseCaseCommon.h) with its C++ default member values;
durations are millisecond counts. -/
structure OperationConfig where
  timeout : Int := 30000
  maxRetries : Int := 3
  retryDelay : Int := 1000
  enableProgressCallback : Bool := false
deriving Repr, DecidableEq

/-- `Response<T>` (UseCaseCommon.h).  The default-constructed `T result` of the
C++ is modelled as `Option T` (`none` until a success stores a value); the
wall-clock `executionTime` field is not modelled. -/
structure Response (T : Type) where
  result : Option T
  success : Bool
  error : ErrorDetails
  timedOut : Bool
deriving Repr, DecidableEq

/-- The `Response(const T&)` success constructor. -/
def Response.ofSuccess {T : Type} (res : T) : Response T :=
  { result := some res, success := true,
    error := { category := .VALIDATION_ERROR, message := "", technicalDetails := "",
               retryAttempt := 0 },
    timedOut := false }

/-- The `Response(category, message, technical = "")` error constructor. -/
def Response.ofError {T : Type} (category : ErrorCategory) (message : String)
    (technical : String) : Response T :=
  { result := none, success := false,
    error := { category := category, message := message,
               technicalDetails := technical, retryAttempt := 0 },
    timedOut := false }

/-- What one invocation of the wrapped operation observably does, as seen by
the `catch` ladder of `BaseUseCase::executeWithRetry`: a value, or one of the
exception kinds thrown by `executeWithTimeout` / `throwRepositoryError` /
`throwValidationError` / `throwBusinessRuleError` / anything else. -/
inductive AttemptOutcome (T : Type) where
  | success (value : T)
  | timeoutFailure (message : String)
  | repositoryFailure (message : String)
  | validationFailure (message : String)
  | businessRuleFailure (message : String)
  | unknownFailure (message : String)

/-- The `for (int attempt = 0; attempt <= maxRetries; ++attempt)` loop of
`BaseUseCase::executeWithRetry`.  `operation n` is the outcome of the `n`-th
invocation; `fuel` counts the loop iterations still permitted (so the loop is
entered iff `fuel > 0`, and `attempt + fuel = maxRetries + 1` at the top-level
call); `sleeps` is the trace of `sleep_for(retryDelay)` durations performed so
far.  Exhausted fuel reaches the "shouldn't be reached" epilogue. -/
def retryLoop {T : Type} (operation : Nat → AttemptOutcome T)
    (actualConfig : OperationConfig) :
    Nat → Nat → List Int → Response T × List Int
  | _, 0, sleeps =>
    (Response.ofError .SYSTEM_ERROR "Maximum retries exceeded" "", sleeps)
  | attempt, fuel + 1, sleeps =>
    match operation attempt with
    | .success v => (Response.ofSuccess v, sleeps)
    | .timeoutFailure msg =>
      ({ Response.ofError .TIMEOUT_ERROR
           ("Operation timed out after " ++ toString actualConfig.timeout ++ "ms") msg
         with timedOut := true }, sleeps)
    | .repositoryFailure msg =>
      if (attempt : Int) < actualConfig.maxRetries then
        retryLoop operation actualConfig (attempt + 1) fuel
          (sleeps ++ [actualConfig.retryDelay])
      else
        (let response : Response T := Response.ofError .REPOSITORY_ERROR
            ("Repository operation failed after "
              ++ toString (actualConfig.maxRetries + 1) ++ " attempts") msg
         ({ response with error := { response.error with retryAttempt := (attempt : Int) } },
          sleeps))
    | .validationFailure msg => (Response.ofError .VALIDATION_ERROR msg "", sleeps)
    | .businessRuleFailure msg => (Response.ofError .BUSINESS_RULE_ERROR msg "", sleeps)
    | .unknownFailure msg =>
      if (attempt : Int) < actualConfig.maxRetries then
        retryLoop operation actualConfig (attempt + 1) fuel
          (sleeps ++ [actualConfig.retryDelay])
      else
        (let response : Response T := Response.ofError .SYSTEM_ERROR
            ("Unexpected error after "
              ++ toString (actualConfig.maxRetries + 1) ++ " attempts") msg
         ({ response with error := { response.error with retryAttempt := (attempt : Int) } },
          sleeps))

/-- `BaseUseCase::executeWithRetry`: picks the effective config — the per-call
one only when its timeout is positive, the executor's default otherwise — and
runs the retry loop.  Returns the response paired with the trace of sleeps. -/
def executeWithRetry {T : Type} (defaultConfig : OperationConfig)
    (config : OperationConfig) (operation : Nat → AttemptOutcome T) :
    Response T × List Int :=
  let actualConfig := if config.timeout > 0 then config else defaultConfig
  retryLoop operation actualConfig 0 (actualConfig.maxRetries + 1).toNat []

/-! ## Helper lemmas -/

/-- Folding `addFolderId` appends the folded ids to the existing list. -/
theorem foldl_addFolderId (folderIds : List String) (project : Project) :
    folderIds.foldl Project.addFolderId project =
      { project with folderIds := project.folderIds ++ folderIds } := by
  induction folderIds generalizing project with
  | nil => simp
  | cons f fs ih =>
    simp only [List.foldl_cons, ih, Project.addFolderId, List.append_assoc,
      List.singleton_append]

/-- `removeDataSource` removes exactly the entries bearing the name and
reports whether any entry bore it. -/
theorem removeDataSource_eq {T : Type} (getName : T → String) (l : List T)
    (n : String) :
    removeDataSource getName l n =
      (l.filter (fun ds => getName ds ≠ n), l.any (fun ds => getName ds = n)) := by
  unfold removeDataSource
  by_cases h : (l.filter (fun ds => getName ds ≠ n)).length = l.length
  · rw [if_neg (by omega)]
    have hall : ∀ a ∈ l, getName a ≠ n := by
      intro a ha
      by_contra hpa
      have hlt : (l.filter (fun ds => getName ds ≠ n)).length < l.length :=
        List.length_filter_lt_length_iff_exists.mpr ⟨a, ha, by simpa using hpa⟩
      omega
    have hfil : l.filter (fun ds => getName ds ≠ n) = l := by
      rw [List.filter_eq_self]
      intro a ha
      simpa using hall a ha
    have hany : l.any (fun ds => getName ds = n) = false := by
      rw [Bool.eq_false_iff]
      intro hcon
      obtain ⟨a, ha, hpa⟩ := List.any_eq_true.mp hcon
      exact hall a ha (by simpa using hpa)
    rw [hfil, hany]
  · rw [if_pos h]
    have hlt : (l.filter (fun ds => getName ds ≠ n)).length < l.length := by
      have := List.length_filter_le (fun ds => decide (getName ds ≠ n)) l
      omega
    obtain ⟨a, ha, hpa⟩ := List.length_filter_lt_length_iff_exists.mp hlt
    have hany : l.any (fun ds => getName ds = n) = true :=
      List.any_eq_true.mpr ⟨a, ha, by simpa using hpa⟩
    rw [hany]

/-- Adding a sequence of (non-null) backends appends them in order. -/
theorem applyOps_adds (dss init : List DataSource) :
    applyOps (dss.map (fun ds => RouterOp.add (some ds))) init = init ++ dss := by
  induction dss generalizing init with
  | nil => simp [applyOps]
  | cons d ds ih =>
    simp only [List.map_cons, applyOps, List.foldl_cons]
    have : applyOp init (RouterOp.add (some d)) = init ++ [d] := rfl
    rw [this]
    have := ih (init ++ [d])
    simp only [applyOps] at this
    rw [this, List.append_assoc, List.singleton_append]

/-- The `std::max_element` scan returns an element bounding the start and every
scanned element, and — unless it is the start itself — the first list element
of maximal priority (everything before it is strictly smaller). -/
theorem firstMaxFrom_spec (xs : List DataSource) (best : DataSource) :
    best.priority ≤ (firstMaxFrom best xs).priority ∧
    (∀ x ∈ xs, x.priority ≤ (firstMaxFrom best xs).priority) ∧
    (firstMaxFrom best xs = best ∨
      ∃ pre post, xs = pre ++ firstMaxFrom best xs :: post ∧
        best.priority < (firstMaxFrom best xs).priority ∧
        ∀ x ∈ pre, x.priority < (firstMaxFrom best xs).priority) := by
  induction xs generalizing best with
  | nil => exact ⟨le_refl _, by simp, Or.inl rfl⟩
  | cons x xs ih =>
    by_cases hx : best.priority < x.priority
    · have h1 : firstMaxFrom best (x :: xs) = firstMaxFrom x xs := by
        simp [firstMaxFrom, if_pos hx]
      obtain ⟨hb, hall, hcase⟩ := ih x
      rw [h1]
      refine ⟨le_of_lt (lt_of_lt_of_le hx hb), ?_, ?_⟩
      · intro y hy
        rcases List.mem_cons.mp hy with h | h
        · rw [h]; exact hb
        · exact hall y h
      · rcases hcase with heq | ⟨pre, post, hdecomp, hlt, hpre⟩
        · right
          refine ⟨[], xs, ?_, ?_, by simp⟩
          · rw [heq]; rfl
          · rw [heq]; exact hx
        · right
          refine ⟨x :: pre, post, ?_, lt_trans hx hlt, ?_⟩
          · rw [List.cons_append, ← hdecomp]
          · intro y hy
            rcases List.mem_cons.mp hy with h | h
            · rw [h]; exact hlt
            · exact hpre y h
    · have h1 : firstMaxFrom best (x :: xs) = firstMaxFrom best xs := by
        simp [firstMaxFrom, if_neg hx]
      obtain ⟨hb, hall, hcase⟩ := ih best
      rw [h1]
      push_neg at hx
      refine ⟨hb, ?_, ?_⟩
      · intro y hy
        rcases List.mem_cons.mp hy with h | h
        · rw [h]; exact le_trans hx hb
        · exact hall y h
      · rcases hcase with heq | ⟨pre, post, hdecomp, hlt, hpre⟩
        · left; exact heq
        · right
          refine ⟨x :: pre, post, ?_, hlt, ?_⟩
          · rw [List.cons_append, ← hdecomp]
          · intro y hy
            rcases List.mem_cons.mp hy with h | h
            · rw [h]; exact lt_of_le_of_lt hx hlt
            · exact hpre y h

/-- A backend is cache-typed iff its type is in the configured set. -/
theorem isCacheType_iff (cacheTypes : List String) (source : DataSource) :
    isCacheType cacheTypes source = true ↔ source.type ∈ cacheTypes := by
  simp [isCacheType, List.any_eq_true]

/-- If no element of the list is cache-typed, the cache scan finds nothing. -/
theorem findCacheSource_eq_none (cacheTypes : List String) (l : List DataSource)
    (h : ∀ x ∈ l, x.type ∉ cacheTypes) : findCacheSource cacheTypes l = none := by
  induction l with
  | nil => rfl
  | cons s rest ih =>
    have hs : isCacheType cacheTypes s = false := by
      rw [Bool.eq_false_iff]
      intro hc
      exact h s (List.mem_cons_self s rest) ((isCacheType_iff cacheTypes s).mp hc)
    rw [findCacheSource, if_neg (by simp [hs])]
    exact ih fun x hx => h x (List.mem_cons_of_mem s hx)

/-- If some element of the list is cache-typed, the cache scan returns the
first such element. -/
theorem findCacheSource_first (cacheTypes : List String) (l : List DataSource)
    (h : ∃ x ∈ l, x.type ∈ cacheTypes) :
    ∃ c pre post, findCacheSource cacheTypes l = some c ∧ l = pre ++ c :: post ∧
      c.type ∈ cacheTypes ∧ ∀ x ∈ pre, x.type ∉ cacheTypes := by
  induction l with
  | nil => simp at h
  | cons s rest ih =>
    by_cases hs : isCacheType cacheTypes s = true
    · refine ⟨s, [], rest, ?_, rfl, (isCacheType_iff cacheTypes s).mp hs, by simp⟩
      rw [findCacheSource, if_pos (by simp [hs])]
    · have hsm : s.type ∉ cacheTypes := fun hc =>
        hs ((isCacheType_iff cacheTypes s).mpr hc)
      obtain ⟨x, hx, hxt⟩ := h
      rcases List.mem_cons.mp hx with heq | hmem
      · exact absurd (heq ▸ hxt) hsm
      · obtain ⟨c, pre, post, hfind, hdecomp, hct, hpre⟩ := ih ⟨x, hmem, hxt⟩
        refine ⟨c, s :: pre, post, ?_, by rw [List.cons_append, ← hdecomp], hct, ?_⟩
        · rw [findCacheSource, if_neg (by simp [hs])]
          exact hfind
        · intro y hy
          rcases List.mem_cons.mp hy with heq | hmem2
          · rw [heq]; exact hsm
          · exact hpre y hmem2

/-- The fallback loop returns the first success, whatever errors came before. -/
theorem readLoop_first_ok {T ρ : Type} (getName : T → String)
    (operation : T → Except String ρ) (pre : List T) (ds : T) (post : List T)
    (r : ρ) (hpre : ∀ x ∈ pre, isOkRes (operation x) = false)
    (hds : operation ds = .ok r) (errors : String) :
    readLoop getName operation (pre ++ ds :: post) errors = .ok r := by
  induction pre generalizing errors with
  | nil => simp [readLoop, hds]
  | cons p ps ih =>
    have hp := hpre p (List.mem_cons_self p ps)
    cases hop : operation p with
    | ok v => rw [hop] at hp; simp [isOkRes] at hp
    | error e =>
      rw [List.cons_append]
      simp only [readLoop, hop]
      exact ih (fun x hx => hpre x (List.mem_cons_of_mem p hx)) _

/-- When every backend in the loop fails, the aggregate error carries the
accumulated stream followed by each backend's `"[name: message] "` fragment. -/
theorem readLoop_all_fail {T ρ : Type} (getName : T → String)
    (operation : T → Except String ρ) (l : List T)
    (hall : ∀ x ∈ l, isOkRes (operation x) = false) (errors : String) :
    readLoop getName operation l errors =
      .error ("All datasources failed: "
        ++ (errors ++ aggErrors getName operation l)) := by
  induction l generalizing errors with
  | nil => rw [readLoop, aggErrors, String.append_empty]
  | cons d rest ih =>
    have hd := hall d (List.mem_cons_self d rest)
    cases hop : operation d with
    | ok v => rw [hop] at hd; simp [isOkRes] at hd
    | error e =>
      simp only [readLoop, hop]
      rw [ih (fun x hx => hall x (List.mem_cons_of_mem d hx)),
        aggErrors, failFragment, hop, errOf]
      congr 1
      simp [String.append_assoc]

/-- The fan-out loop succeeds with all successful results appended, as soon as
a success was recorded or some remaining backend will succeed. -/
theorem writeLoop_ok {T ρ : Type} (getName : T → String)
    (operation : T → Except String ρ) (l : List T) (results : List ρ)
    (errors : String) (anySuccess : Bool)
    (h : anySuccess = true ∨ ∃ d ∈ l, isOkRes (operation d) = true) :
    writeLoop getName operation l results errors anySuccess =
      .ok (results ++ l.filterMap (fun ds => (operation ds).toOption)) := by
  induction l generalizing results errors anySuccess with
  | nil =>
    rcases h with h | h
    · rw [writeLoop, if_pos h, List.filterMap_nil, List.append_nil]
    · simp at h
  | cons d rest ih =>
    cases hop : operation d with
    | ok v =>
      simp only [writeLoop, hop]
      rw [ih (results ++ [v]) errors true (Or.inl rfl), List.filterMap_cons, hop]
      simp [Except.toOption, List.append_assoc]
    | error e =>
      have h2 : anySuccess = true ∨ ∃ x ∈ rest, isOkRes (operation x) = true := by
        rcases h with h | ⟨x, hx, hxo⟩
        · exact Or.inl h
        · rcases List.mem_cons.mp hx with heq | hmem
          · rw [heq, hop] at hxo; simp [isOkRes] at hxo
          · exact Or.inr ⟨x, hmem, hxo⟩
      simp only [writeLoop, hop]
      rw [ih results _ anySuccess h2, List.filterMap_cons, hop]
      simp [Except.toOption]

/-- When every selected backend fails and no success was recorded, the fan-out
loop fails with the aggregated error. -/
theorem writeLoop_all_fail {T ρ : Type} (getName : T → String)
    (operation : T → Except String ρ) (l : List T) (results : List ρ)
    (errors : String) (hall : ∀ d ∈ l, isOkRes (operation d) = false) :
    writeLoop getName operation l results errors false =
      .error ("All datasources failed: "
        ++ (errors ++ aggErrors getName operation l)) := by
  induction l generalizing results errors with
  | nil => rw [writeLoop, if_neg (by simp), aggErrors, String.append_empty]
  | cons d rest ih =>
    have hd := hall d (List.mem_cons_self d rest)
    cases hop : operation d with
    | ok v => rw [hop] at hd; simp [isOkRes] at hd
    | error e =>
      simp only [writeLoop, hop]
      rw [ih results _ (fun x hx => hall x (List.mem_cons_of_mem d hx)),
        aggErrors, failFragment, hop, errOf]
      congr 1
      simp [String.append_assoc]

/-- `executeRead` with no available backend throws the dedicated error. -/
theorem executeRead_empty {T ρ : Type} (getName : T → String) (isAvailable : T → Bool)
    (dataSources : List T) (operation : T → Except String ρ)
    (h : getAvailableDataSources isAvailable dataSources = []) :
    executeRead getName isAvailable dataSources operation =
      .error "No available datasources for read operation" := by
  rw [executeRead]
  simp only [h, List.isEmpty_nil, if_pos]

/-- `executeRead` returns the first success along the available list. -/
theorem executeRead_first_ok {T ρ : Type} (getName : T → String)
    (isAvailable : T → Bool) (dataSources : List T)
    (operation : T → Except String ρ) (pre : List T) (ds : T) (post : List T) (r : ρ)
    (hdecomp : getAvailableDataSources isAvailable dataSources = pre ++ ds :: post)
    (hpre : ∀ x ∈ pre, isOkRes (operation x) = false)
    (hds : operation ds = .ok r) :
    executeRead getName isAvailable dataSources operation = .ok r := by
  rw [executeRead]
  simp only [hdecomp]
  rw [if_neg (by simp)]
  exact readLoop_first_ok getName operation pre ds post r hpre hds ""

/-- `executeRead` with a non-empty available list on which every attempt fails
throws the aggregated error. -/
theorem executeRead_all_fail {T ρ : Type} (getName : T → String)
    (isAvailable : T → Bool) (dataSources : List T)
    (operation : T → Except String ρ)
    (hne : getAvailableDataSources isAvailable dataSources ≠ [])
    (hall : ∀ x ∈ getAvailableDataSources isAvailable dataSources,
      isOkRes (operation x) = false) :
    executeRead getName isAvailable dataSources operation =
      .error ("All datasources failed: "
        ++ aggErrors getName operation (getAvailableDataSources isAvailable dataSources)) := by
  rw [executeRead]
  rw [if_neg (by simp [List.isEmpty_iff, hne])]
  rw [readLoop_all_fail getName operation _ hall ""]
  rw [String.empty_append]

/-! ## Claim theorems -/

/-- C9: mapping an entity to a backend record and back
(`mapper.toEntity(mapper.toDTO(e))`) preserves id, name and the parent-link
fields — a Note's `parentFolderId` and a Project's `folderIds`. -/
theorem C9_mapper_round_trip :
    (∀ (e : Note) (now now2 : Int),
      (SqliteNoteMapper.toEntity now2 (SqliteNoteMapper.toDTO now e)).id = e.id ∧
      (SqliteNoteMapper.toEntity now2 (SqliteNoteMapper.toDTO now e)).name = e.name ∧
      (SqliteNoteMapper.toEntity now2 (SqliteNoteMapper.toDTO now e)).parentFolderId =
        e.parentFolderId) ∧
    (∀ (e : Project) (now : Int),
      (SqliteProjectMapper.toEntity (SqliteProjectMapper.toDTO now e)).id = e.id ∧
      (SqliteProjectMapper.toEntity (SqliteProjectMapper.toDTO now e)).name = e.name ∧
      (SqliteProjectMapper.toEntity (SqliteProjectMapper.toDTO now e)).folderIds =
        e.folderIds) := by
  constructor
  · intro e now now2
    exact ⟨rfl, rfl, rfl⟩
  · intro e now
    simp [SqliteProjectMapper.toEntity, SqliteProjectMapper.toDTO, foldl_addFolderId,
      Project.make]

/-- C10: a per-call `OperationConfig` whose timeout is not positive is
discarded entirely — `executeWithRetry` then behaves exactly as if called with
the executor's default config, so the per-call `maxRetries`/`retryDelay` are
ignored. -/
theorem C10_nonpositive_timeout_discards_config {T : Type}
    (defaultConfig config : OperationConfig) (operation : Nat → AttemptOutcome T)
    (h : config.timeout ≤ 0) :
    executeWithRetry defaultConfig config operation =
      executeWithRetry defaultConfig defaultConfig operation := by
  unfold executeWithRetry
  have hc : ¬ config.timeout > 0 := by omega
  simp [hc]

/-- C10 witness: timeout `0` with custom `maxRetries = 99`, `retryDelay = 7`
behaves as the default config. -/
theorem C10_witness :
    executeWithRetry {} { timeout := 0, maxRetries := 99, retryDelay := 7 }
        (fun _ => AttemptOutcome.success (1 : Nat)) =
      executeWithRetry {} {} (fun _ => AttemptOutcome.success (1 : Nat)) :=
  C10_nonpositive_timeout_discards_config {}
    { timeout := 0, maxRetries := 99, retryDelay := 7 }
    (fun _ => AttemptOutcome.success (1 : Nat)) (by decide)

/-- C5 counterexample: with two registered backends both named `"a"`,
`removeDataSource "a"` removes **both** entries (`std::remove_if` erases every
match), not exactly one first match as claimed. -/
theorem C5_counterexample :
    removeDataSource DataSource.name
        [⟨"a", "Database", 100, true⟩, ⟨"a", "Memory", 200, true⟩] "a" =
      ([], true) ∧
    removeDataSource DataSource.name
        [⟨"a", "Database", 100, true⟩, ⟨"a", "Memory", 200, true⟩] "a" ≠
      ([⟨"a", "Memory", 200, true⟩], true) := by
  constructor
  · decide
  · decide

/-- C5 (amended): `getAllDataSources` returns exactly the registered backends
in insertion order; removing a registered name removes **all** entries bearing
that name (hence exactly one when registered names are distinct) and returns
`true`; removing an unregistered name is a no-op returning `false`. -/
theorem C5_registration_and_removal :
    (∀ dss : List DataSource,
      getAllDataSources (applyOps (dss.map (fun ds => RouterOp.add (some ds))) []) =
        dss) ∧
    (∀ (dataSources : List DataSource) (datasourceName : String),
      removeDataSource DataSource.name dataSources datasourceName =
        (dataSources.filter (fun ds => ds.name ≠ datasourceName),
         dataSources.any (fun ds => ds.name = datasourceName))) ∧
    (∀ (dataSources : List DataSource) (datasourceName : String),
      dataSources.any (fun ds => ds.name = datasourceName) = false →
      removeDataSource DataSource.name dataSources datasourceName =
        (dataSources, false)) := by
  refine ⟨?_, ?_, ?_⟩
  · intro dss
    rw [getAllDataSources, applyOps_adds, List.nil_append]
  · intro l n
    exact removeDataSource_eq DataSource.name l n
  · intro l n h
    rw [removeDataSource_eq DataSource.name l n, h]
    have : l.filter (fun ds => ds.name ≠ n) = l := by
      rw [List.filter_eq_self]
      intro a ha
      have := List.any_eq_true.not.mp (by rw [h]; exact Bool.false_ne_true)
      push_neg at this
      simpa using this a ha
    rw [this]

/-- C5 witness: removing the unregistered name `"b"` leaves the single
`"a"`-named backend untouched and returns `false`. -/
theorem C5_witness :
    removeDataSource DataSource.name [⟨"a", "Database", 100, true⟩] "b" =
      ([⟨"a", "Database", 100, true⟩], false) :=
  C5_registration_and_removal.2.2 [⟨"a", "Database", 100, true⟩] "b" (by decide)

/-- C6: on a non-empty available list the priority strategy's `selectForRead`
returns the backend of maximum priority, a tie going to the one appearing
first in the input order (everything before the winner is strictly smaller);
`selectForWrite` returns all available backends. -/
theorem C6_priority_strategy (available : List DataSource) (h : available ≠ []) :
    (∃ m pre post,
      SimplePriorityStrategy.selectForRead available = some m ∧
      available = pre ++ m :: post ∧
      (∀ x ∈ available, x.priority ≤ m.priority) ∧
      (∀ x ∈ pre, x.priority < m.priority)) ∧
    SimplePriorityStrategy.selectForWrite available = available := by
  match available, h with
  | d :: ds, _ =>
    refine ⟨?_, rfl⟩
    obtain ⟨hb, hall, hcase⟩ := firstMaxFrom_spec ds d
    rcases hcase with heq | ⟨pre, post, hdecomp, hlt, hpre⟩
    · refine ⟨firstMaxFrom d ds, [], ds, rfl, ?_, ?_, by simp⟩
      · rw [heq]; rfl
      · intro x hx
        rcases List.mem_cons.mp hx with hh | hh
        · rw [hh, heq]
        · exact hall x hh
    · refine ⟨firstMaxFrom d ds, d :: pre, post, rfl, ?_, ?_, ?_⟩
      · rw [List.cons_append, ← hdecomp]
      · intro x hx
        rcases List.mem_cons.mp hx with hh | hh
        · rw [hh]; exact hb
        · exact hall x hh
      · intro x hx
        rcases List.mem_cons.mp hx with hh | hh
        · rw [hh]; exact hlt
        · exact hpre x hh

/-- C6 witness: with priorities `A:100, B:200` the strategy reads from `B`,
and writes to both. -/
theorem C6_witness :
    (∃ m pre post,
      SimplePriorityStrategy.selectForRead
        [⟨"A", "Database", 100, true⟩, ⟨"B", "Database", 200, true⟩] = some m ∧
      [DataSource.mk "A" "Database" 100 true, ⟨"B", "Database", 200, true⟩] =
        pre ++ m :: post ∧
      (∀ x ∈ [DataSource.mk "A" "Database" 100 true, ⟨"B", "Database", 200, true⟩],
        x.priority ≤ m.priority) ∧
      (∀ x ∈ pre, x.priority < m.priority)) ∧
    SimplePriorityStrategy.selectForWrite
        [⟨"A", "Database", 100, true⟩, ⟨"B", "Database", 200, true⟩] =
      [⟨"A", "Database", 100, true⟩, ⟨"B", "Database", 200, true⟩] :=
  C6_priority_strategy
    [⟨"A", "Database", 100, true⟩, ⟨"B", "Database", 200, true⟩] (by simp)

/-- C7: on a non-empty available list the cache-first strategy's
`selectForRead` returns the first backend whose type is in `cacheTypes`,
falling back to the first available backend when none is cache-typed;
`selectForWrite` returns all available backends under write-through, and
exactly the non-cache backends otherwise. -/
theorem C7_cache_first_strategy (cacheTypes : List String)
    (writeThroughEnabled : Bool) (available : List DataSource) (h : available ≠ []) :
    ((∃ x ∈ available, x.type ∈ cacheTypes) →
      ∃ c pre post,
        (SimpleCacheFirstStrategy cacheTypes writeThroughEnabled).selectForRead
            available = some c ∧
        available = pre ++ c :: post ∧ c.type ∈ cacheTypes ∧
        ∀ x ∈ pre, x.type ∉ cacheTypes) ∧
    ((∀ x ∈ available, x.type ∉ cacheTypes) →
      (SimpleCacheFirstStrategy cacheTypes writeThroughEnabled).selectForRead
          available = available.head?) ∧
    (writeThroughEnabled = true →
      (SimpleCacheFirstStrategy cacheTypes writeThroughEnabled).selectForWrite
          available = available) ∧
    (writeThroughEnabled = false →
      (SimpleCacheFirstStrategy cacheTypes writeThroughEnabled).selectForWrite
          available = available.filter (fun s => !isCacheType cacheTypes s)) := by
  match available, h with
  | first :: rest, _ =>
    refine ⟨?_, ?_, ?_, ?_⟩
    · intro hx
      obtain ⟨c, pre, post, hfind, hdecomp, hct, hpre⟩ :=
        findCacheSource_first cacheTypes (first :: rest) hx
      refine ⟨c, pre, post, ?_, hdecomp, hct, hpre⟩
      simp only [SimpleCacheFirstStrategy, hfind]
    · intro hnone
      simp only [SimpleCacheFirstStrategy,
        findCacheSource_eq_none cacheTypes (first :: rest) hnone, List.head?_cons]
    · intro hw
      simp only [SimpleCacheFirstStrategy, hw, Bool.not_true, Bool.false_eq_true,
        if_false]
    · intro hw
      simp only [SimpleCacheFirstStrategy, hw, Bool.not_false, if_true]

/-- C7 witness: with `cacheTypes = ["Memory"]` and backends
`db:"Database", mem:"Memory"`, read picks `mem`; with write-through disabled,
writes go only to `db`. -/
theorem C7_witness :
    (∃ c pre post,
      (SimpleCacheFirstStrategy ["Memory"] false).selectForRead
          [⟨"db", "Database", 100, true⟩, ⟨"mem", "Memory", 200, true⟩] = some c ∧
      [DataSource.mk "db" "Database" 100 true, ⟨"mem", "Memory", 200, true⟩] =
        pre ++ c :: post ∧ c.type ∈ ["Memory"] ∧
      ∀ x ∈ pre, x.type ∉ ["Memory"]) ∧
    (SimpleCacheFirstStrategy ["Memory"] false).selectForWrite
        [⟨"db", "Database", 100, true⟩, ⟨"mem", "Memory", 200, true⟩] =
      [DataSource.mk "db" "Database" 100 true,
        ⟨"mem", "Memory", 200, true⟩].filter (fun s => !isCacheType ["Memory"] s) :=
  ⟨(C7_cache_first_strategy ["Memory"] false
      [⟨"db", "Database", 100, true⟩, ⟨"mem", "Memory", 200, true⟩] (by simp)).1
    ⟨⟨"mem", "Memory", 200, true⟩, by simp, by simp⟩,
   (C7_cache_first_strategy ["Memory"] false
      [⟨"db", "Database", 100, true⟩, ⟨"mem", "Memory", 200, true⟩] (by simp)).2.2.2
    rfl⟩

/-- C2: `executeRead` iterates the available backends in registration order
(the availability filter preserves it; the strategy plays no part in the
iteration order), returns the first success, and on an empty available set or
all-failing attempts throws the aggregated `"[name: message] "` error. -/
theorem C2_executeRead_fallback {T ρ : Type} (getName : T → String)
    (isAvailable : T → Bool) (dataSources : List T)
    (operation : T → Except String ρ) :
    getAvailableDataSources isAvailable dataSources = dataSources.filter isAvailable ∧
    (getAvailableDataSources isAvailable dataSources = [] →
      executeRead getName isAvailable dataSources operation =
        .error "No available datasources for read operation") ∧
    (∀ pre ds post r,
      getAvailableDataSources isAvailable dataSources = pre ++ ds :: post →
      (∀ x ∈ pre, isOkRes (operation x) = false) →
      operation ds = .ok r →
      executeRead getName isAvailable dataSources operation = .ok r) ∧
    (getAvailableDataSources isAvailable dataSources ≠ [] →
      (∀ x ∈ getAvailableDataSources isAvailable dataSources,
        isOkRes (operation x) = false) →
      executeRead getName isAvailable dataSources operation =
        .error ("All datasources failed: "
          ++ aggErrors getName operation
            (getAvailableDataSources isAvailable dataSources))) := by
  refine ⟨rfl, ?_, ?_, ?_⟩
  · exact executeRead_empty getName isAvailable dataSources operation
  · intro pre ds post r hdecomp hpre hds
    exact executeRead_first_ok getName isAvailable dataSources operation
      pre ds post r hdecomp hpre hds
  · exact executeRead_all_fail getName isAvailable dataSources operation

/-- C2 witness: an unavailable backend is skipped, the first available backend
fails, and the second available backend's success is returned. -/
theorem C2_witness :
    executeRead DataSource.name DataSource.available
      [⟨"off", "Database", 1, false⟩, ⟨"b", "Database", 2, true⟩,
        ⟨"c", "Memory", 3, true⟩]
      (fun ds => if ds.name = "b" then Except.error "boom" else Except.ok 7) =
      .ok 7 :=
  (C2_executeRead_fallback DataSource.name DataSource.available
      [⟨"off", "Database", 1, false⟩, ⟨"b", "Database", 2, true⟩,
        ⟨"c", "Memory", 3, true⟩]
      (fun ds => if ds.name = "b" then Except.error "boom" else Except.ok 7)).2.2.1
    [⟨"b", "Database", 2, true⟩] ⟨"c", "Memory", 3, true⟩ [] 7
    (by decide) (by decide) rfl

/-- C3: `executeWrite` computes its target set via the strategy's
`selectForWrite`, invokes the operation on each target in that order
collecting the successful results, succeeds iff at least one target
succeeded, and aggregates the per-backend errors otherwise (also failing when
the target set is empty). -/
theorem C3_executeWrite_partial_success {T ρ : Type} (getName : T → String)
    (isAvailable : T → Bool) (router : Router T) (operation : T → Except String ρ) :
    (∀ strat, router.strategy = some strat →
      getAvailableDataSources isAvailable router.dataSources ≠ [] →
      routerSelectForWrite isAvailable router =
        strat.selectForWrite (getAvailableDataSources isAvailable router.dataSources)) ∧
    (routerSelectForWrite isAvailable router = [] →
      executeWrite getName isAvailable router operation =
        .error "No available datasources for write operation") ∧
    ((∃ ds ∈ routerSelectForWrite isAvailable router, isOkRes (operation ds) = true) →
      executeWrite getName isAvailable router operation =
        .ok ((routerSelectForWrite isAvailable router).filterMap
          (fun ds => (operation ds).toOption))) ∧
    (routerSelectForWrite isAvailable router ≠ [] →
      (∀ ds ∈ routerSelectForWrite isAvailable router,
        isOkRes (operation ds) = false) →
      executeWrite getName isAvailable router operation =
        .error ("All datasources failed: "
          ++ aggErrors getName operation (routerSelectForWrite isAvailable router))) := by
  refine ⟨?_, ?_, ?_, ?_⟩
  · intro strat hstrat hne
    rw [routerSelectForWrite]
    simp only [hstrat]
    rw [if_neg (by simp [List.isEmpty_iff, hne])]
  · intro h
    rw [executeWrite]
    simp only [h, List.isEmpty_nil, if_pos]
  · intro hex
    obtain ⟨ds, hds, hok⟩ := hex
    rw [executeWrite]
    rw [if_neg (by simp [List.isEmpty_iff]; exact List.ne_nil_of_mem hds)]
    rw [writeLoop_ok getName operation _ [] "" false (Or.inr ⟨ds, hds, hok⟩),
      List.nil_append]
  · intro hne hall
    rw [executeWrite]
    rw [if_neg (by simp [List.isEmpty_iff, hne])]
    rw [writeLoop_all_fail getName operation _ [] "" hall, String.empty_append]

/-- C3 witness: a strategy whose `selectForWrite` reverses the available list;
one of the two targets fails, so the write succeeds with the single
successful result. -/
theorem C3_witness :
    executeWrite DataSource.name DataSource.available
      { dataSources := [⟨"d1", "Database", 1, true⟩, ⟨"d2", "Memory", 2, true⟩],
        strategy := some ⟨fun l => l.head?, fun l => l.reverse⟩ }
      (fun ds => if ds.name = "d2" then Except.error "disk full" else Except.ok 7) =
      .ok [7] :=
  Eq.trans
    ((C3_executeWrite_partial_success DataSource.name DataSource.available
        { dataSources := [⟨"d1", "Database", 1, true⟩, ⟨"d2", "Memory", 2, true⟩],
          strategy := some ⟨fun l => l.head?, fun l => l.reverse⟩ }
        (fun ds => if ds.name = "d2" then Except.error "disk full"
          else Except.ok 7)).2.2.1
      ⟨⟨"d1", "Database", 1, true⟩, by decide, rfl⟩)
    rfl

/-- The name-wrapping lambda of `findById` preserves success/failure. -/
theorem isOkRes_projectFindByIdOp {DTO : Type} (id : String)
    (ds : ProjectDataSource DTO) :
    isOkRes (projectFindByIdOp id ds) = isOkRes (ds.findById id) := by
  cases h : ds.findById id <;> simp [projectFindByIdOp, h, isOkRes]

/-- The name-wrapping lambda of the project `exists` preserves
success/failure. -/
theorem isOkRes_projectExistsOp {DTO : Type} (id : String)
    (ds : ProjectDataSource DTO) :
    isOkRes (projectExistsOp id ds) = isOkRes (ds.existsById id) := by
  cases h : ds.existsById id <;> simp [projectExistsOp, h, isOkRes]

/-- The name-wrapping lambda of the note `exists` preserves success/failure. -/
theorem isOkRes_noteExistsOp (id : String) (ds : NoteDataSource) :
    isOkRes (noteExistsOp id ds) = isOkRes (ds.existsById id) := by
  cases h : ds.existsById id <;> simp [noteExistsOp, h, isOkRes]

/-- C1 counterexample: the first available backend reports a clean miss
(`.ok none`, no exception) while the second holds the record; `findById`
returns "not found" instead of the later backend's record, because
`executeRead` stops at the first non-throwing result whether or not it is
empty. -/
theorem C1_counterexample :
    MultiSourceProjectRepository.findById SqliteProjectMapper.toEntity
        [⟨"primary", true, fun _ => .ok none, fun _ => .ok false⟩,
         ⟨"secondary", true,
           fun _ => .ok (some ⟨"p1", "My Project", "", 0, 0, []⟩),
           fun _ => .ok true⟩] "p1" = .ok none ∧
    (ProjectDataSource.findById
        (⟨"secondary", true,
          fun _ => .ok (some ⟨"p1", "My Project", "", 0, 0, []⟩),
          fun _ => .ok true⟩ : ProjectDataSource SqliteProjectDTO) "p1" =
      .ok (some ⟨"p1", "My Project", "", 0, 0, []⟩)) ∧
    (Except.ok none : Except String (Option Project)) ≠
      .ok (some (SqliteProjectMapper.toEntity ⟨"p1", "My Project", "", 0, 0, []⟩)) := by
  refine ⟨rfl, rfl, ?_⟩
  simp

/-- C1 (amended): `findById` returns the result of the **first non-throwing**
available backend, mapped to an entity — so an earlier clean miss
short-circuits to "not found" even when a later backend holds the record, and
a later backend's record is only returned when every earlier available
backend raises; if every available backend raises, or none is available,
`findById` surfaces a wrapped error. -/
theorem C1_findById_first_result {DTO : Type} (toEntity : DTO → Project)
    (dataSources : List (ProjectDataSource DTO)) (id : String) :
    (∀ pre ds post,
      getAvailableDataSources ProjectDataSource.available dataSources =
        pre ++ ds :: post →
      (∀ x ∈ pre, isOkRes (x.findById id) = false) →
      ∀ v, ds.findById id = .ok v →
      MultiSourceProjectRepository.findById toEntity dataSources id =
        .ok (v.map toEntity)) ∧
    (getAvailableDataSources ProjectDataSource.available dataSources ≠ [] →
      (∀ x ∈ getAvailableDataSources ProjectDataSource.available dataSources,
        isOkRes (x.findById id) = false) →
      ∃ e, MultiSourceProjectRepository.findById toEntity dataSources id =
        .error e) ∧
    (getAvailableDataSources ProjectDataSource.available dataSources = [] →
      ∃ e, MultiSourceProjectRepository.findById toEntity dataSources id =
        .error e) := by
  refine ⟨?_, ?_, ?_⟩
  · intro pre ds post hdecomp hpre v hds
    have hexec : executeRead ProjectDataSource.name ProjectDataSource.available
        dataSources (projectFindByIdOp id) = .ok v :=
      executeRead_first_ok _ _ _ _ pre ds post v hdecomp
        (fun x hx => by rw [isOkRes_projectFindByIdOp]; exact hpre x hx)
        (by simp [projectFindByIdOp, hds])
    rw [MultiSourceProjectRepository.findById, hexec]
    cases v <;> rfl
  · intro hne hall
    have hexec := executeRead_all_fail ProjectDataSource.name
      ProjectDataSource.available dataSources (projectFindByIdOp id) hne
      (fun x hx => by rw [isOkRes_projectFindByIdOp]; exact hall x hx)
    exact ⟨_, by rw [MultiSourceProjectRepository.findById, hexec]⟩
  · intro hempty
    have hexec := executeRead_empty ProjectDataSource.name
      ProjectDataSource.available dataSources (projectFindByIdOp id) hempty
    exact ⟨_, by rw [MultiSourceProjectRepository.findById, hexec]⟩

/-- C1 witness: the first backend raises and the second holds the record, so
`findById` fails over and returns the record. -/
theorem C1_witness :
    MultiSourceProjectRepository.findById SqliteProjectMapper.toEntity
        [⟨"primary", true, fun _ => .error "db down", fun _ => .ok false⟩,
         ⟨"secondary", true,
           fun _ => .ok (some ⟨"p1", "N", "D", 0, 0, ["f1"]⟩),
           fun _ => .ok true⟩] "p1" =
      .ok (some (SqliteProjectMapper.toEntity ⟨"p1", "N", "D", 0, 0, ["f1"]⟩)) :=
  (C1_findById_first_result SqliteProjectMapper.toEntity
      [⟨"primary", true, fun _ => .error "db down", fun _ => .ok false⟩,
       ⟨"secondary", true,
         fun _ => .ok (some ⟨"p1", "N", "D", 0, 0, ["f1"]⟩),
         fun _ => .ok true⟩] "p1").1
    [⟨"primary", true, fun _ => .error "db down", fun _ => .ok false⟩]
    ⟨"secondary", true, fun _ => .ok (some ⟨"p1", "N", "D", 0, 0, ["f1"]⟩),
      fun _ => .ok true⟩
    [] rfl (by decide) (some ⟨"p1", "N", "D", 0, 0, ["f1"]⟩) rfl

/-- C8: `exists(id)` swallows every backend failure — with no available
backend, or with every available backend raising, it returns `false` (for
both the project and the note repository) — whereas `findById`, like the
other reads, surfaces an error in the all-raising case rather than
downgrading it. -/
theorem C8_exists_swallows_failures {DTO : Type} (toEntity : DTO → Project)
    (dataSources : List (ProjectDataSource DTO))
    (noteSources : List NoteDataSource) (id : String) :
    (getAvailableDataSources ProjectDataSource.available dataSources = [] →
      MultiSourceProjectRepository.existsById dataSources id = false) ∧
    ((∀ x ∈ getAvailableDataSources ProjectDataSource.available dataSources,
        isOkRes (x.existsById id) = false) →
      MultiSourceProjectRepository.existsById dataSources id = false) ∧
    (getAvailableDataSources NoteDataSource.available noteSources = [] →
      MultiSourceNoteRepository.existsById noteSources id = false) ∧
    ((∀ x ∈ getAvailableDataSources NoteDataSource.available noteSources,
        isOkRes (x.existsById id) = false) →
      MultiSourceNoteRepository.existsById noteSources id = false) ∧
    (getAvailableDataSources ProjectDataSource.available dataSources ≠ [] →
      (∀ x ∈ getAvailableDataSources ProjectDataSource.available dataSources,
        isOkRes (x.findById id) = false) →
      ∃ e, MultiSourceProjectRepository.findById toEntity dataSources id =
        .error e) := by
  refine ⟨?_, ?_, ?_, ?_, ?_⟩
  · intro hempty
    rw [MultiSourceProjectRepository.existsById,
      executeRead_empty ProjectDataSource.name ProjectDataSource.available
        dataSources (projectExistsOp id) hempty]
  · intro hall
    by_cases hne : getAvailableDataSources ProjectDataSource.available dataSources = []
    · rw [MultiSourceProjectRepository.existsById,
        executeRead_empty ProjectDataSource.name ProjectDataSource.available
          dataSources (projectExistsOp id) hne]
    · rw [MultiSourceProjectRepository.existsById,
        executeRead_all_fail ProjectDataSource.name ProjectDataSource.available
          dataSources (projectExistsOp id) hne
          (fun x hx => by rw [isOkRes_projectExistsOp]; exact hall x hx)]
  · intro hempty
    rw [MultiSourceNoteRepository.existsById,
      executeRead_empty NoteDataSource.name NoteDataSource.available
        noteSources (noteExistsOp id) hempty]
  · intro hall
    by_cases hne : getAvailableDataSources NoteDataSource.available noteSources = []
    · rw [MultiSourceNoteRepository.existsById,
        executeRead_empty NoteDataSource.name NoteDataSource.available
          noteSources (noteExistsOp id) hne]
    · rw [MultiSourceNoteRepository.existsById,
        executeRead_all_fail NoteDataSource.name NoteDataSource.available
          noteSources (noteExistsOp id) hne
          (fun x hx => by rw [isOkRes_noteExistsOp]; exact hall x hx)]
  · intro hne hall
    have hexec := executeRead_all_fail ProjectDataSource.name
      ProjectDataSource.available dataSources (projectFindByIdOp id) hne
      (fun x hx => by rw [isOkRes_projectFindByIdOp]; exact hall x hx)
    exact ⟨_, by rw [MultiSourceProjectRepository.findById, hexec]⟩

/-- C8 witness: a project repository whose single backend raises on `exists`
returns `false`, and so does a note repository with no available backend. -/
theorem C8_witness :
    MultiSourceProjectRepository.existsById
        [(⟨"primary", true, fun _ => .error "down", fun _ => .error "db down"⟩ :
          ProjectDataSource SqliteProjectDTO)] "p1" = false ∧
    MultiSourceNoteRepository.existsById [⟨"n1", false, fun _ => .ok true⟩] "p1" =
      false :=
  ⟨(C8_exists_swallows_failures SqliteProjectMapper.toEntity
      [⟨"primary", true, fun _ => .error "down", fun _ => .error "db down"⟩]
      [⟨"n1", false, fun _ => .ok true⟩] "p1").2.1 (by decide),
   (C8_exists_swallows_failures SqliteProjectMapper.toEntity
      [⟨"primary", true, fun _ => .error "down", fun _ => .error "db down"⟩]
      [⟨"n1", false, fun _ => .ok true⟩] "p1").2.2.1 rfl⟩

/-- A persistently repository-failing operation drives the retry loop to the
last permitted attempt, sleeping the fixed delay before each retry, and ends
with `REPOSITORY_ERROR` recording the final attempt index. -/
theorem retryLoop_repo_persistent {T : Type} (operation : Nat → AttemptOutcome T)
    (cfg : OperationConfig) (msg : String)
    (hop : ∀ n, operation n = .repositoryFailure msg) :
    ∀ (fuel attempt : Nat) (sleeps : List Int),
      1 ≤ fuel → (attempt : Int) + fuel = cfg.maxRetries + 1 →
      retryLoop operation cfg attempt fuel sleeps =
        ({ result := none, success := false,
           error := { category := .REPOSITORY_ERROR,
                      message := "Repository operation failed after "
                        ++ toString (cfg.maxRetries + 1) ++ " attempts",
                      technicalDetails := msg,
                      retryAttempt := cfg.maxRetries },
           timedOut := false },
         sleeps ++ List.replicate (fuel - 1) cfg.retryDelay) := by
  intro fuel
  induction fuel with
  | zero => intro attempt sleeps h1 _; omega
  | succ f ih =>
    intro attempt sleeps _ heq
    simp only [retryLoop, hop attempt]
    by_cases hlt : (attempt : Int) < cfg.maxRetries
    · rw [if_pos hlt]
      have hf : 1 ≤ f := by
        by_contra hc
        push_cast at heq
        omega
      rw [ih (attempt + 1) (sleeps ++ [cfg.retryDelay]) hf
        (by push_cast at heq ⊢; omega)]
      obtain ⟨g, hg⟩ : ∃ g, f = g + 1 := ⟨f - 1, by omega⟩
      subst hg
      simp [List.replicate_succ, List.append_assoc]
    · rw [if_neg hlt]
      have hattempt : (attempt : Int) = cfg.maxRetries := by push_cast at heq; omega
      have hf0 : f = 0 := by push_cast at heq; omega
      subst hf0
      simp [Response.ofError, hattempt]

/-- A persistently unknown-failing operation behaves the same, ending with
`SYSTEM_ERROR`. -/
theorem retryLoop_unknown_persistent {T : Type} (operation : Nat → AttemptOutcome T)
    (cfg : OperationConfig) (msg : String)
    (hop : ∀ n, operation n = .unknownFailure msg) :
    ∀ (fuel attempt : Nat) (sleeps : List Int),
      1 ≤ fuel → (attempt : Int) + fuel = cfg.maxRetries + 1 →
      retryLoop operation cfg attempt fuel sleeps =
        ({ result := none, success := false,
           error := { category := .SYSTEM_ERROR,
                      message := "Unexpected error after "
                        ++ toString (cfg.maxRetries + 1) ++ " attempts",
                      technicalDetails := msg,
                      retryAttempt := cfg.maxRetries },
           timedOut := false },
         sleeps ++ List.replicate (fuel - 1) cfg.retryDelay) := by
  intro fuel
  induction fuel with
  | zero => intro attempt sleeps h1 _; omega
  | succ f ih =>
    intro attempt sleeps _ heq
    simp only [retryLoop, hop attempt]
    by_cases hlt : (attempt : Int) < cfg.maxRetries
    · rw [if_pos hlt]
      have hf : 1 ≤ f := by
        by_contra hc
        push_cast at heq
        omega
      rw [ih (attempt + 1) (sleeps ++ [cfg.retryDelay]) hf
        (by push_cast at heq ⊢; omega)]
      obtain ⟨g, hg⟩ : ∃ g, f = g + 1 := ⟨f - 1, by omega⟩
      subst hg
      simp [List.replicate_succ, List.append_assoc]
    · rw [if_neg hlt]
      have hattempt : (attempt : Int) = cfg.maxRetries := by push_cast at heq; omega
      have hf0 : f = 0 := by push_cast at heq; omega
      subst hf0
      simp [Response.ofError, hattempt]

/-- C4: with an effective config (positive timeout) with `maxRetries = k ≥ 0`:
validation, business-rule and timeout failures return immediately with no
retry and no sleep; a persistently failing repository operation is retried
`k` additional times, each preceded by one fixed `retryDelay` sleep (no
backoff), and ends unsuccessfully with category `REPOSITORY_ERROR` and
`retryAttempt = k`; a persistently unknown-failing operation likewise ends
with `SYSTEM_ERROR` and `retryAttempt = k`. -/
theorem C4_categorized_retry {T : Type} (defaultConfig config : OperationConfig)
    (k : Nat) (hk : config.maxRetries = (k : Int)) (ht : config.timeout > 0) :
    (∀ (operation : Nat → AttemptOutcome T) (msg : String),
      operation 0 = .validationFailure msg →
      executeWithRetry defaultConfig config operation =
        (Response.ofError .VALIDATION_ERROR msg "", [])) ∧
    (∀ (operation : Nat → AttemptOutcome T) (msg : String),
      operation 0 = .businessRuleFailure msg →
      executeWithRetry defaultConfig config operation =
        (Response.ofError .BUSINESS_RULE_ERROR msg "", [])) ∧
    (∀ (operation : Nat → AttemptOutcome T) (msg : String),
      operation 0 = .timeoutFailure msg →
      executeWithRetry defaultConfig config operation =
        ({ Response.ofError .TIMEOUT_ERROR
             ("Operation timed out after " ++ toString config.timeout ++ "ms") msg
           with timedOut := true }, [])) ∧
    (∀ (operation : Nat → AttemptOutcome T) (msg : String),
      (∀ n, operation n = .repositoryFailure msg) →
      executeWithRetry defaultConfig config operation =
        ({ result := none, success := false,
           error := { category := .REPOSITORY_ERROR,
                      message := "Repository operation failed after "
                        ++ toString (config.maxRetries + 1) ++ " attempts",
                      technicalDetails := msg, retryAttempt := (k : Int) },
           timedOut := false }, List.replicate k config.retryDelay)) ∧
    (∀ (operation : Nat → AttemptOutcome T) (msg : String),
      (∀ n, operation n = .unknownFailure msg) →
      executeWithRetry defaultConfig config operation =
        ({ result := none, success := false,
           error := { category := .SYSTEM_ERROR,
                      message := "Unexpected error after "
                        ++ toString (config.maxRetries + 1) ++ " attempts",
                      technicalDetails := msg, retryAttempt := (k : Int) },
           timedOut := false }, List.replicate k config.retryDelay)) := by
  have hfuel : (config.maxRetries + 1).toNat = k + 1 := by rw [hk]; omega
  refine ⟨?_, ?_, ?_, ?_, ?_⟩
  · intro operation msg hval
    rw [executeWithRetry]
    simp only [if_pos ht, hfuel]
    simp only [retryLoop, hval]
  · intro operation msg hbus
    rw [executeWithRetry]
    simp only [if_pos ht, hfuel]
    simp only [retryLoop, hbus]
  · intro operation msg htime
    rw [executeWithRetry]
    simp only [if_pos ht, hfuel]
    simp only [retryLoop, htime]
  · intro operation msg hop
    rw [executeWithRetry]
    simp only [if_pos ht, hfuel]
    rw [retryLoop_repo_persistent operation config msg hop (k + 1) 0 []
      (by omega) (by push_cast; omega)]
    simp [hk]
  · intro operation msg hop
    rw [executeWithRetry]
    simp only [if_pos ht, hfuel]
    rw [retryLoop_unknown_persistent operation config msg hop (k + 1) 0 []
      (by omega) (by push_cast; omega)]
    simp [hk]

/-- C4 witness: a persistently failing repository operation with
`maxRetries = 2, retryDelay = 10` ends with `success = false`,
`category = REPOSITORY_ERROR`, `retryAttempt = 2`, after two fixed 10ms
sleeps. -/
theorem C4_witness :
    executeWithRetry {} { timeout := 30000, maxRetries := 2, retryDelay := 10 }
        (fun _ => (AttemptOutcome.repositoryFailure "db down" : AttemptOutcome Nat)) =
      ({ result := none, success := false,
         error := { category := .REPOSITORY_ERROR,
                    message := "Repository operation failed after 3 attempts",
                    technicalDetails := "db down", retryAttempt := 2 },
         timedOut := false }, [10, 10]) :=
  Eq.trans
    ((C4_categorized_retry {}
        { timeout := 30000, maxRetries := 2, retryDelay := 10 } 2 (by decide)
        (by decide)).2.2.2.1
      (fun _ => (AttemptOutcome.repositoryFailure "db down" : AttemptOutcome Nat))
      "db down" (fun _ => rfl))
    (by decide)

end Plotter
